import Mathlib

/-!
Verification of the TvTimeToTrakt reconciliation-and-replay engine.

The definitions below are a shallow embedding of the Python sources
`searcher.py`, `processor.py` and `TimeToTrakt.py` of the repository.
Python strings are Lean `String`s, Python lists are Lean `List`s, Python
ints are Lean `Int`/`Nat`, raised exceptions are modelled with `Option`
(`none` = the call raised) or with explicit outcome types, and the
tinydb tables are modelled as lists of rows.  Each definition names the
source function it embeds.
-/

/-! ### Python string primitives

`str.split()` with no arguments splits on runs of whitespace and drops
empty pieces; `str.strip()` removes leading and trailing whitespace;
`word in other` is a substring test.  These are implemented structurally
over `List Char` so that the kernel can evaluate them.
-/

/-- Helper for `pySplit`: walk the characters, cutting at each whitespace
character (empty pieces are filtered out by the caller, which mirrors
Python splitting on whitespace runs). -/
def splitWSAux : List Char → List Char → List (List Char)
  | [], cur => [cur.reverse]
  | c :: t, cur =>
    if c.isWhitespace then cur.reverse :: splitWSAux t []
    else splitWSAux t (c :: cur)

/-- Embedding of Python `s.split()` (no separator): whitespace-delimited
tokens of `s`, with empty tokens dropped. -/
def pySplit (s : String) : List String :=
  ((splitWSAux s.data []).filter (fun w => w ≠ [])).map String.mk

/-- Embedding of the Python substring test `needle in hay`. -/
def containsSub (needle : List Char) : List Char → Bool
  | [] => needle.isEmpty
  | c :: t => needle.isPrefixOf (c :: t) || containsSub needle t

/-- Embedding of Python `s.strip()`: remove leading and trailing
whitespace. -/
def pyStrip (s : String) : String :=
  String.mk (((s.data.dropWhile Char.isWhitespace).reverse.dropWhile
    Char.isWhitespace).reverse)

/-! ### The matching predicate (searcher.py lines 72-92; same algorithm
as check_title_name_match in TimeToTrakt.py lines 141-163) -/

/-- Count of whitespace-delimited tokens of `name` that occur verbatim
(as substrings) anywhere in `other`; this is `len(words_matched)` in
`Title.matches`. -/
def tokenMatchCount (name other : String) : Nat :=
  ((pySplit name).filter (fun w => containsSub w.data other.data)).length

/-- Embedding of `Title.matches` from searcher.py.  The source returns
`True` on exact equality; otherwise it computes
`len(words_matched) / len(other.split()) * 100 > 50`.  When
`other.split()` is empty that division raises `ZeroDivisionError`,
modelled as `none`.  The source performs the comparison with Python
float division; for any token counts that are remotely realistic
(below 2^26) the rounded quotient compares to 50% exactly like the
exact rational, so the comparison is embedded as the equivalent exact
integer inequality `100 * matched > 50 * tokens`. -/
def title_matches (name other : String) : Option Bool :=
  if name = other then some true
  else
    let denom := (pySplit other).length
    if denom = 0 then none
    else some (decide (100 * tokenMatchCount name other > 50 * denom))

/-! ### Title construction (searcher.py lines 21-47) -/

/-- Embedding of the `Title` dataclass of searcher.py: raw name,
normalized name without the year, optional parsed year. -/
structure Title where
  name : String
  without_year : String
  year : Option Int
deriving DecidableEq, Repr

/-- Character class `[A-Za-z0-9_]` of the year-extraction regex. -/
def isWordChar (c : Char) : Bool :=
  c.isAlphanum || c == '_'

/-- Embedding of `re.search(r"\(([A-Za-z0-9_]+)\)", title)`: scan left to
right; at each `(` try to read a nonempty run of word characters
followed by `)`; the first position where this succeeds yields the
captured group. -/
def scanGroup : List Char → Option (List Char)
  | [] => none
  | c :: rest =>
    if c = '(' ∧ rest.takeWhile isWordChar ≠ [] ∧
        (rest.dropWhile isWordChar).head? = some ')'
    then some (rest.takeWhile isWordChar)
    else scanGroup rest

/-- Helper for `pyIntOfChars`: Python integer literals reject two
consecutive underscores. -/
def noDoubleUnderscore : List Char → Bool
  | a :: b :: t => !(a == '_' && b == '_') && noDoubleUnderscore (b :: t)
  | _ => true

/-- Validity of a (sign-free) digit string for Python `int()`: nonempty,
only digits and underscores, first and last characters are digits, and
no two consecutive underscores. -/
def pyIntValidChars (g : List Char) : Bool :=
  !g.isEmpty && g.all (fun c => c.isDigit || c == '_')
    && (g.head?.map Char.isDigit).getD false
    && (g.getLast?.map Char.isDigit).getD false
    && noDoubleUnderscore g

/-- Numeric value of a digit list. -/
def digitsVal (l : List Char) : Nat :=
  l.foldl (fun a c => a * 10 + (c.toNat - '0'.toNat)) 0

/-- Embedding of Python `int(g)` for an unsigned token `g` (as occurs for
the regex capture group, whose characters are restricted to
`[A-Za-z0-9_]`): digits optionally separated by single underscores;
anything else raises `ValueError`, modelled as `none`. -/
def pyIntOfChars (g : List Char) : Option Nat :=
  if pyIntValidChars g then some (digitsVal (g.filter (fun c => c ≠ '_')))
  else none

/-- Embedding of `Title.__init__(title)` (the one-argument form, which
parses the year out of the raw string).  On a successful regex search
and `int()` parse, the year is the parsed group and the normalized name
is `title.split("(")[0].strip()`; any failure is absorbed and yields
`year = none` with the normalized name equal to the raw string. -/
def mkTitle (title : String) : Title :=
  match scanGroup title.data with
  | some g =>
    match pyIntOfChars g with
    | some v =>
      { name := title
        without_year := pyStrip (String.mk (title.data.takeWhile (fun c => c ≠ '(')))
        year := some (v : Int) }
    | none => { name := title, without_year := title, year := none }
  | none => { name := title, without_year := title, year := none }

/-- Embedding of `Title.__init__(title, year)` (the two-argument form used
by `TVTimeMovie` when a release year is known). -/
def mkTitleWithYear (title : String) (year : Int) : Title :=
  { name := title, without_year := title, year := some year }

/-! ### Candidate filtering (searcher.py lines 49-70) -/

/-- A Trakt search result as consumed by the matcher: its title and its
(optional) broadcast year. -/
structure CandItem where
  title : String
  year : Option Int
deriving DecidableEq, Repr

/-- Python truthiness of the optional year (`if self.year:`): `None` and
`0` are falsy. -/
def pyTruthy : Option Int → Bool
  | none => false
  | some y => y != 0

/-- Loop body of `Title.items_with_same_name`, with the accumulated
`with_same_name` list made explicit.  A `title_matches` call that raises
propagates (`none`).  When the title's year is truthy, an exact
name-and-year hit replaces the accumulator with that single item and
breaks; otherwise only year-agreeing matching items are appended.  When
the year is falsy every matching item is appended. -/
def itemsLoop (t : Title) : List CandItem → List CandItem → Option (List CandItem)
  | [], acc => some acc
  | item :: rest, acc =>
    match title_matches t.name item.title with
    | none => none
    | some false => itemsLoop t rest acc
    | some true =>
      if pyTruthy t.year then
        if t.name == item.title && item.year == t.year then some [item]
        else if item.year == t.year then itemsLoop t rest (acc ++ [item])
        else itemsLoop t rest acc
      else itemsLoop t rest (acc ++ [item])

/-- Embedding of `Title.items_with_same_name` from searcher.py. -/
def items_with_same_name (t : Title) (items : List CandItem) : Option (List CandItem) :=
  itemsLoop t items []

/-! ### The Searcher (searcher.py lines 158-257)

`Searcher.search` is parameterised here by the raw Trakt search results
(the external `search_trakt` collaborator), by the contents of the
user-matched tinydb table (a list of rows in insertion order), and by
the stream of strings the user types at the interactive prompt.  The
tinydb row `{"Name": ..., "UserSelectedIndex": ..., "Skip": ...}` is the
`Decision` structure. -/

/-- A persisted manual-selection row of the user-matched table. -/
structure Decision where
  name : String
  index : Int
  skip : Bool
deriving DecidableEq, Repr

/-- Python list indexing `l[i]`: nonnegative indices from the front,
negative indices from the back, out-of-range raises `IndexError`
(modelled as `none`). -/
def pyGet? (l : List α) (i : Int) : Option α :=
  if 0 ≤ i then l.get? i.toNat
  else if -(l.length : Int) ≤ i then l.get? ((l.length : Int) + i).toNat
  else none

/-- The local name used by `Searcher.search` (lines 165-168): the
year-stripped title when the year is truthy, the raw name otherwise. -/
def effectiveName (t : Title) : String :=
  if pyTruthy t.year then t.without_year else t.name

/-- Embedding of `Searcher._check_single_result` (lines 251-257): a
unique exact-title match wins; otherwise a singleton candidate list
wins; otherwise `None`. -/
def check_single_result (name : String) (items : List CandItem) : Option CandItem :=
  let complete := items.filter (fun i => i.title == name)
  if complete.length = 1 then complete.head?
  else if items.length = 1 then items.head?
  else none

/-- Result of `Searcher._search_local` (lines 197-211). -/
inductive LocalRes where
  | noEntry
  | skipRes
  | pick (c : CandItem)
  | idxError
deriving DecidableEq, Repr

/-- Embedding of `Searcher._search_local`: look the name up in the
user-matched table; the memo is used only when the query returns
exactly one row; a skip row resolves to no match; otherwise the stored
index is applied to the current candidate list (Python indexing, so a
bad index raises `IndexError`). -/
def search_local (name : String) (table : List Decision) (items : List CandItem) : LocalRes :=
  match table.filter (fun d => d.name == name) with
  | [d] =>
    if d.skip then .skipRes
    else
      match pyGet? items d.index with
      | some c => .pick c
      | none => .idxError
  | _ => .noEntry

/-- Embedding of Python `int(s)` on arbitrary prompt input: strip
whitespace, allow one optional sign, then digits with single
underscores; anything else raises `ValueError` (modelled as `none`). -/
def pyParseInt (s : String) : Option Int :=
  match (pyStrip s).data with
  | '+' :: rest => (pyIntOfChars rest).map (fun n => (n : Int))
  | '-' :: rest => (pyIntOfChars rest).map (fun n => -(n : Int))
  | l => (pyIntOfChars l).map (fun n => (n : Int))

/-- Outcome of the input loop of `Searcher._handle_multiple_manually`. -/
inductive HandleRes where
  | skipped
  | picked (c : CandItem) (i : Int)
  | idxErr
deriving DecidableEq, Repr

/-- Embedding of the input loop of `Searcher._handle_multiple_manually`
(lines 213-249): consume prompt answers until either `SKIP` or a string
that parses as an int; a parsed answer `n` selects `items[n - 1]` with
Python indexing (`idxErr` models the `IndexError` that a bad index
raises at line 239); unparsable answers are logged and re-prompted.
The returned `Nat` counts the prompts consumed; exhausting the scripted
input stream (the user never answers) is `none`. -/
def handle_multiple_manually (items : List CandItem) : List String → Option (HandleRes × Nat)
  | [] => none
  | s :: rest =>
    if s == "SKIP" then some (.skipped, 1)
    else
      match pyParseInt s with
      | some n =>
        match pyGet? items (n - 1) with
        | some c => some (.picked c (n - 1), 1)
        | none => some (.idxErr, 1)
      | none => (handle_multiple_manually items rest).map (fun r => (r.1, r.2 + 1))

/-- Observable outcome of `Searcher.search`: a resolved candidate, a
"no match" (`None` in the source), or a propagated `IndexError`. -/
inductive SOut where
  | found (c : CandItem)
  | noMatch
  | pyErr
deriving DecidableEq, Repr

/-- Embedding of `Searcher.search` (lines 164-187) together with the
persistence performed in `_handle_multiple_manually`: returns the
outcome, the table after the call, and the number of interactive
prompts consumed.  `none` models a run that never returns (input stream
exhausted) or an exception escaping from `title_matches`. -/
def searcher_search (t : Title) (raw : List CandItem) (table : List Decision)
    (inputs : List String) : Option (SOut × List Decision × Nat) :=
  let name := effectiveName t
  match items_with_same_name t raw with
  | none => none
  | some items =>
    match check_single_result name items with
    | some c => some (.found c, table, 0)
    | none =>
      if items.length < 1 then some (.noMatch, table, 0)
      else
        match search_local name table items with
        | .skipRes => some (.noMatch, table, 0)
        | .pick c => some (.found c, table, 0)
        | .idxError => some (.pyErr, table, 0)
        | .noEntry =>
          match handle_multiple_manually items inputs with
          | none => none
          | some (.skipped, k) => some (.noMatch, table ++ [⟨name, 0, true⟩], k)
          | some (.picked c i, k) => some (.found c, table ++ [⟨name, i, false⟩], k)
          | some (.idxErr, k) => some (.pyErr, table, k)

/-! ### The Sync Processor (processor.py)

`Processor.process_item` is a retry loop around one attempt at a record:
sleep the per-item delay, call `_search`, and on a hit call `_process`,
which issues the mutation and appends the ledger row.  Exceptions are
classified by the `except` arms of lines 74-112.  The loop is driven by
`error_streak`, which starts at 0 and is only ever incremented before a
retry; the loop top gives up once `error_streak > 10`.  The embedding
replaces `error_streak` by the equivalent decreasing counter
`remaining = 11 - error_streak` (so the guard `error_streak > 10`
becomes `remaining = 0`, the increment becomes a decrement, and the
initial value 0 becomes 11), which makes the loop structurally
recursive.  The `error_streak = 0` reset at line 72 is immediately
followed by `break`, so it has no observable effect.

External behaviour is abstracted by an oracle giving, for each attempt
index, the outcome of the `_search` call and (if reached) of the
mutation inside `_process`; everything the claims observe — catalog
search calls, mutation calls, cooldown sleeps, ledger writes — is
recorded in an event trace. -/

/-- The ledger: the synced-episodes table (rows `{"episodeId": id}`) and
the synced-movies table (rows `{"movie_name": n, "type": ty}` with
`ty` either "watched" or "watchlist"), in insertion order. -/
structure Ledger where
  episodes : List String
  movies : List (String × String)
deriving DecidableEq, Repr

/-- Observable events of one `process_item` call. -/
inductive Event where
  | delay
  | searchCall
  | cooldown
  | markSeen
  | addWatchlist
  | insertEpisode (id : String)
  | insertMovie (nm ty : String)
  | uncaughtError
deriving DecidableEq, BEq, Repr

/-- Does the event write a ledger row? -/
def eventIsInsert : Event → Bool
  | .insertEpisode _ => true
  | .insertMovie _ _ => true
  | _ => false

/-- Events that are neither mutations nor ledger writes (the delay, the
catalog search call, the failure cooldown, and the marker of an
exception escaping `process_item`). -/
def benignEvent : Event → Bool
  | .delay => true
  | .searchCall => true
  | .cooldown => true
  | .uncaughtError => true
  | _ => false

/-- The exception classes caught by `process_item` (other than
`KeyboardInterrupt`, which exits the program). -/
inductive PyExc where
  | indexError
  | notFound
  | rateLimit
  | jsonDecode
  | other
deriving DecidableEq, Repr

/-- Whether the attempt loop breaks (`done`) or repeats (`retry`). -/
inductive AttemptRes where
  | done
  | retry
deriving DecidableEq, Repr

/-- The `except` arms of `process_item` (lines 74-112) for an exception
raised inside `_process`, where the local `trakt_item` is bound (it was
assigned by this very attempt's `_search`), so every handler is safe:
`IndexError` and `NotFoundException` log and break;
`RateLimitException` and `JSONDecodeError` sleep 60 seconds and retry
with the streak incremented; any other exception retries with the
streak incremented but without the cooldown. -/
def handleExc : PyExc → List Event × AttemptRes
  | .indexError => ([], .done)
  | .notFound => ([], .done)
  | .rateLimit => ([.cooldown], .retry)
  | .jsonDecode => ([.cooldown], .retry)
  | .other => ([], .retry)

/-- The same `except` arms for an exception raised by the `_search` call
itself.  The `IndexError` handler `_handle_index_error` dereferences
the local `trakt_item` (processor.py line 78), which is assigned only
at line 66 inside the `try`: if no earlier attempt of this record has
assigned it (`bound = false`, in particular on the record's first
attempt), the handler raises `UnboundLocalError`, which is caught by
nothing and escapes `process_item`, aborting the run — recorded here
as the `uncaughtError` event.  If a stale `trakt_item` from an earlier
attempt of the same record is in scope (`bound = true`), the handler
logs and breaks as intended.  All other handlers read only values that
are always bound. -/
def handleSearchExc (bound : Bool) : PyExc → List Event × AttemptRes
  | .indexError => if bound then ([], .done) else ([.uncaughtError], .done)
  | .notFound => ([], .done)
  | .rateLimit => ([.cooldown], .retry)
  | .jsonDecode => ([.cooldown], .retry)
  | .other => ([], .retry)

/-- Outcome of the `_search` call of one attempt: a resolved item, a
`None` (resolver says skip), or a raised exception. -/
inductive SearchOutcome where
  | found
  | noneResult
  | exc (e : PyExc)
deriving DecidableEq, Repr

/-- Outcome of the mutation part of `_process` in one attempt (the
season/episode lookups and the `mark_as_seen`/`add_to_watchlist`
call): success, or a raised exception. -/
inductive MutOutcome where
  | ok
  | exc (e : PyExc)
deriving DecidableEq, Repr

/-- Environment of one attempt: what the external world does. -/
structure AttemptEnv where
  search : SearchOutcome
  mutation : MutOutcome
deriving DecidableEq, Repr

/-- One attempt of `TVShowProcessor` (`_search` + `_process`, lines
141-160): on success the episode is marked seen and
`{"episodeId": ...}` is appended to the synced-episodes table.
`bound` records whether the local `trakt_item` is already assigned
when the attempt starts; the attempt returns the updated flag (a
completed `_search` assigns the local, a `_search` that raises leaves
it as it was). -/
def tvAttemptEnv (rec : String) (env : AttemptEnv) (bound : Bool) (l : Ledger) :
    List Event × Ledger × Bool × AttemptRes :=
  match env.search with
  | .noneResult => ([.delay, .searchCall], l, true, .done)
  | .exc e => ([.delay, .searchCall] ++ (handleSearchExc bound e).1, l, bound,
      (handleSearchExc bound e).2)
  | .found =>
    match env.mutation with
    | .ok => ([.delay, .searchCall, .markSeen, .insertEpisode rec],
              { l with episodes := l.episodes ++ [rec] }, true, .done)
    | .exc e => ([.delay, .searchCall] ++ (handleExc e).1, l, true, (handleExc e).2)

/-- A movie watch record: the TV Time movie name and the activity type
(`row["type"]`, "watch" for a watched entry). -/
structure MovieRecord where
  name : String
  activityType : String
deriving DecidableEq, Repr

/-- One attempt of `MovieProcessor` (`_search` + `_process`, lines
199-227): a "watch" activity marks the movie seen and appends a
"watched" row; otherwise, if the synced-movies table has no
"watchlist" row for the name, the movie is added to the watchlist and
a "watchlist" row is appended; otherwise only a warning is logged.
`bound` tracks the `trakt_movie_obj` local exactly as for shows. -/
def movieAttemptEnv (rec : MovieRecord) (env : AttemptEnv) (bound : Bool) (l : Ledger) :
    List Event × Ledger × Bool × AttemptRes :=
  match env.search with
  | .noneResult => ([.delay, .searchCall], l, true, .done)
  | .exc e => ([.delay, .searchCall] ++ (handleSearchExc bound e).1, l, bound,
      (handleSearchExc bound e).2)
  | .found =>
    if rec.activityType == "watch" then
      match env.mutation with
      | .ok => ([.delay, .searchCall, .markSeen, .insertMovie rec.name "watched"],
                { l with movies := l.movies ++ [(rec.name, "watched")] }, true, .done)
      | .exc e => ([.delay, .searchCall] ++ (handleExc e).1, l, true, (handleExc e).2)
    else
      if (l.movies.filter (fun p => p.1 == rec.name && p.2 == "watchlist")).length = 0 then
        match env.mutation with
        | .ok => ([.delay, .searchCall, .addWatchlist, .insertMovie rec.name "watchlist"],
                  { l with movies := l.movies ++ [(rec.name, "watchlist")] }, true, .done)
        | .exc e => ([.delay, .searchCall] ++ (handleExc e).1, l, true, (handleExc e).2)
      else ([.delay, .searchCall], l, true, .done)

/-- The `while True` loop of `process_item` (lines 50-112), with
`remaining = 11 - error_streak` as described above.  `k` is the attempt
index fed to the oracle-driven attempt function, and `sc` is the value
of `_should_continue` (which depends only on the record and the
batch-derived watched list, so it is constant over the loop). -/
def processLoop (sc : Bool)
    (attempt : Nat → Bool → Ledger → List Event × Ledger × Bool × AttemptRes) :
    Nat → Nat → Bool → Ledger → List Event × Ledger
  | _, 0, _, l => ([], l)
  | k, n + 1, bound, l =>
    if sc then
      match attempt k bound l with
      | (ev, l2, _, .done) => (ev, l2)
      | (ev, l2, b2, .retry) =>
        let r := processLoop sc attempt (k + 1) n b2 l2
        (ev ++ r.1, r.2)
    else ([], l)

/-- Embedding of `Processor.process_item` (lines 37-112): if the synced
query returned rows, log and return at once; otherwise run the retry
loop with the `trakt_item` local not yet bound. -/
def process_item (synced : Bool) (sc : Bool)
    (attempt : Nat → Bool → Ledger → List Event × Ledger × Bool × AttemptRes)
    (l : Ledger) : List Event × Ledger :=
  if synced then ([], l) else processLoop sc attempt 0 11 false l

/-- Embedding of `TVShowProcessor._get_synced_items` (lines 127-129):
rows of the synced-episodes table whose `episodeId` equals the
record's. -/
def tvGetSynced (episodeId : String) (l : Ledger) : List String :=
  l.episodes.filter (fun id => id == episodeId)

/-- `process_item` as run by `TVShowProcessor` for the episode with the
given TV Time episode id (`_should_continue` is constantly true for
shows, line 138-139). -/
def tv_process_item (episodeId : String) (oracle : Nat → AttemptEnv) (l : Ledger) :
    List Event × Ledger :=
  process_item (!(tvGetSynced episodeId l).isEmpty) true
    (fun k => tvAttemptEnv episodeId (oracle k)) l

/-- Embedding of `MovieProcessor._get_synced_items` (lines 182-186):
rows of the synced-movies table with this movie name and type
"watched".  Note the query matches only "watched" rows, whatever the
record's own activity type. -/
def movieGetSynced (rec : MovieRecord) (l : Ledger) : List (String × String) :=
  l.movies.filter (fun p => p.1 == rec.name && p.2 == "watched")

/-- Embedding of `MovieProcessor._should_continue` (lines 191-197): skip
a non-"watch" record whose name is in the batch watched list.  The
caller builds `watchedList` as the names of all "watch"-type rows of
the import batch (process_movies, TimeToTrakt.py lines 645-650). -/
def movie_should_continue (rec : MovieRecord) (watchedList : List String) : Bool :=
  !(watchedList.contains rec.name && rec.activityType != "watch")

/-- `process_item` as run by `MovieProcessor`. -/
def movie_process_item (rec : MovieRecord) (watchedList : List String)
    (oracle : Nat → AttemptEnv) (l : Ledger) : List Event × Ledger :=
  process_item (!(movieGetSynced rec l).isEmpty)
    (movie_should_continue rec watchedList)
    (fun k => movieAttemptEnv rec (oracle k)) l

/-- The spec's logical key of a movie record, as a ledger membership:
the record's `(movieName, activityType)` pair corresponds to the
"watched" ledger row for a "watch" activity and to the "watchlist"
ledger row for any other activity. -/
def movieKeyPresent (rec : MovieRecord) (l : Ledger) : Prop :=
  (rec.name, if rec.activityType = "watch" then "watched" else "watchlist") ∈ l.movies

/-! ### Season index resolution (searcher.py lines 113-137; same
algorithm as parse_season_number in TimeToTrakt.py lines 326-345) -/

/-- Embedding of `TVTimeTVShow.parse_season_number`: `seasons` is the
list of season numbers of the Trakt show, in array order.  An empty
season list raises `IndexError` at `seasons[0]` (modelled as `none`).
If the first season is numbered 0 the source number is returned
unchanged; otherwise it is decremented, except that a source season 0
is returned unchanged. -/
def parse_season_number (season_number : Int) (seasons : List Int) : Option Int :=
  match seasons with
  | [] => none
  | first :: _ =>
    if first = 0 then some season_number
    else
      if season_number ≠ 0 then some (season_number - 1)
      else some season_number

/-! ### Helper lemmas -/

/-- Equal strings always match (the early-exit of `Title.matches`). -/
lemma title_matches_refl (s : String) : title_matches s s = some true := by
  simp [title_matches]

/-- `Title.matches` only raises when the candidate has no tokens. -/
lemma title_matches_total (name other : String) (h : (pySplit other).length ≠ 0) :
    ∃ b, title_matches name other = some b := by
  by_cases he : name = other
  · exact ⟨true, by simp [title_matches, he]⟩
  · refine ⟨decide (100 * tokenMatchCount name other > 50 * (pySplit other).length), ?_⟩
    unfold title_matches
    rw [if_neg he]
    show (if (pySplit other).length = 0 then none
      else some (decide (100 * tokenMatchCount name other >
        50 * (pySplit other).length))) = _
    rw [if_neg h]

/-! ### C2 — the matching predicate -/

/-- C2 (amended): `title_matches name other` returns `true` on exact
equality, and otherwise — provided `other` has at least one
whitespace-delimited token — returns `true` iff the number of tokens of
`name` occurring verbatim as substrings of `other`, divided by the
number of tokens of `other`, strictly exceeds 1/2.  (When `other` has
no tokens and differs from `name`, the source raises
`ZeroDivisionError`; see the counterexample.) -/
theorem matching_predicate (name other : String)
    (h : (pySplit other).length ≠ 0) :
    title_matches name other =
      some (decide (name = other ∨
        (1 : ℚ) / 2 <
          (tokenMatchCount name other : ℚ) / ((pySplit other).length : ℚ))) := by
  have hd : (0 : ℚ) < ((pySplit other).length : ℚ) := by
    exact_mod_cast Nat.pos_of_ne_zero h
  by_cases he : name = other
  · simp [title_matches, he]
  · have hiff : (100 * tokenMatchCount name other > 50 * (pySplit other).length) ↔
        (name = other ∨
          (1 : ℚ) / 2 <
            (tokenMatchCount name other : ℚ) / ((pySplit other).length : ℚ)) := by
      rw [or_iff_right he, div_lt_div_iff₀ (by norm_num) hd]
      constructor
      · intro hgt
        exact_mod_cast (by omega :
          1 * (pySplit other).length < tokenMatchCount name other * 2)
      · intro hlt
        have hnat : 1 * (pySplit other).length < tokenMatchCount name other * 2 := by
          exact_mod_cast hlt
        omega
    unfold title_matches
    rw [if_neg he]
    show (if (pySplit other).length = 0 then none
      else some (decide (100 * tokenMatchCount name other >
        50 * (pySplit other).length))) = _
    rw [if_neg h]
    exact congrArg some (decide_eq_decide.mpr hiff)

/-- C2 witness: the spec's own examples, resolved through the theorem.
`"Doctor Who"` vs `"Doctor Who Confidential"` has 2 of the candidate's
3 tokens matched. -/
theorem matching_predicate_witness :
    title_matches "Doctor Who" "Doctor Who Confidential" = some true :=
  (matching_predicate "Doctor Who" "Doctor Who Confidential" (by decide)).trans (by
    have h2 : tokenMatchCount "Doctor Who" "Doctor Who Confidential" = 2 := by decide
    have h3 : (pySplit "Doctor Who Confidential").length = 3 := by decide
    rw [h2, h3]
    simp only [Option.some.injEq, decide_eq_true_eq]
    refine Or.inr ?_
    norm_num)

/-- C2 counterexample: the claim quantifies over every pair of strings,
but at `name = "a"`, `candidateTitle = ""` (no tokens) the source does
not return a boolean at all — `len(words_matched) / len(other.split())`
raises `ZeroDivisionError`. -/
theorem matching_predicate_counterexample : title_matches "a" "" = none := by
  decide

/-! ### C7 — season index resolution -/

/-- C7: `parse_season_number` returns the source number unchanged when
the target's first season is numbered 0; otherwise it subtracts one
from a nonzero source number and leaves 0 unchanged.  The spec's three
sample points are included. -/
theorem season_index_resolution :
    (∀ (s f : Int) (rest : List Int),
        parse_season_number s (f :: rest) =
          some (if f = 0 then s else if s = 0 then s else s - 1)) ∧
    parse_season_number 1 [1] = some 0 ∧
    parse_season_number 0 [0] = some 0 ∧
    parse_season_number 0 [1] = some 0 := by
  refine ⟨?_, by decide, by decide, by decide⟩
  intro s f rest
  by_cases hf : f = 0 <;> by_cases hs : s = 0 <;>
    simp [parse_season_number, hf, hs]

/-! ### C9 — watchlist suppression -/

/-- C9: a movie record whose activity type is not "watch" and whose
name has a "watched" entry arising from the same import batch is
suppressed: either the batch watched list contains the name (the
caller lists every "watch"-type row of the batch there, so this covers
the watched row being written before or after this record) and
`_should_continue` breaks the loop before any search, or the "watched"
ledger row is already present and the synced-items check returns
early.  Either way no mutation is issued and the ledger is unchanged. -/
theorem watchlist_suppression :
    ∀ (rec : MovieRecord) (wl : List String) (oracle : Nat → AttemptEnv) (l : Ledger),
      rec.activityType ≠ "watch" →
      (rec.name ∈ wl ∨ (rec.name, "watched") ∈ l.movies) →
      movie_process_item rec wl oracle l = ([], l) := by
  intro rec wl oracle l hact hkey
  rcases hkey with hwl | hled
  · have hsc : movie_should_continue rec wl = false := by
      simp [movie_should_continue]
      exact ⟨hwl, hact⟩
    unfold movie_process_item process_item
    rw [hsc]
    by_cases hs : (!(movieGetSynced rec l).isEmpty) = true
    · rw [if_pos hs]
    · rw [if_neg hs]; rfl
  · have hs : (movieGetSynced rec l).isEmpty = false := by
      have : (rec.name, "watched") ∈ movieGetSynced rec l := by
        simp [movieGetSynced, List.mem_filter, hled]
      rcases h : movieGetSynced rec l with _ | ⟨a, t⟩
      · rw [h] at this; cases this
      · rfl
    unfold movie_process_item process_item
    rw [hs]
    rfl

/-- C9 witness: a "follow" record for a movie that also has a "watch"
row in the batch produces no events at all. -/
theorem watchlist_suppression_witness :
    movie_process_item ⟨"M", "follow"⟩ ["M"] (fun _ => ⟨.found, .ok⟩) ⟨[], []⟩ =
      ([], ⟨[], []⟩) :=
  watchlist_suppression ⟨"M", "follow"⟩ ["M"] _ _ (by decide) (Or.inl (by decide))

/-! ### C8 — title normalization -/

/-- Soundness of the regex embedding: a captured group is a nonempty run
of word characters that occurs in the scanned text wrapped in
parentheses. -/
lemma scanGroup_sound : ∀ (l g : List Char), scanGroup l = some g →
    g ≠ [] ∧ (∀ c ∈ g, isWordChar c = true) ∧
    ∃ pre post, l = pre ++ '(' :: (g ++ ')' :: post) := by
  intro l
  induction l with
  | nil => intro g hg; simp [scanGroup] at hg
  | cons c rest ih =>
    intro g hg
    rw [scanGroup] at hg
    split_ifs at hg with hcond
    · obtain ⟨hc, hne, hhead⟩ := hcond
      injection hg with hg
      subst hg
      subst hc
      refine ⟨hne, ?_, ?_⟩
      · intro x hx
        exact List.mem_takeWhile_imp hx
      · rcases hd : rest.dropWhile isWordChar with _ | ⟨d, post⟩
        · rw [hd] at hhead; cases hhead
        · rw [hd] at hhead
          injection hhead with hhead
          subst hhead
          refine ⟨[], post, ?_⟩
          have happ : rest.takeWhile isWordChar ++ rest.dropWhile isWordChar = rest :=
            List.takeWhile_append_dropWhile isWordChar rest
          rw [hd] at happ
          simp only [List.nil_append]
          rw [happ]
    · obtain ⟨hne, hwc, pre, post, hdec⟩ := ih g hg
      exact ⟨hne, hwc, c :: pre, post, by simp [hdec]⟩

/-- C8 (amended): `mkTitle` always keeps the raw name; when the
left-to-right regex search finds no `([A-Za-z0-9_]+)` group, or the
first such group does not parse as a Python integer, the constructor
falls back to `year = none` with the normalized form equal to the raw
string (no exception propagates — the fallback is total); when the
first group parses as an integer `v`, the year is `v`, the normalized
form is the trimmed prefix before the first `(`, and the group really
occurs in the raw text wrapped in parentheses.  The group found is the
first one in left-to-right scan order, not a trailing one — see the
counterexample. -/
theorem title_normalization :
    (∀ title : String, (mkTitle title).name = title) ∧
    (∀ title : String, (scanGroup title.data).bind pyIntOfChars = none →
        mkTitle title = ⟨title, title, none⟩) ∧
    (∀ (title : String) (g : List Char) (v : Nat),
        scanGroup title.data = some g → pyIntOfChars g = some v →
        mkTitle title =
          ⟨title, pyStrip (String.mk (title.data.takeWhile (fun c => c ≠ '('))),
            some (v : Int)⟩ ∧
        g ≠ [] ∧ (∀ c ∈ g, isWordChar c = true) ∧
        ∃ pre post, title.data = pre ++ '(' :: (g ++ ')' :: post)) := by
  refine ⟨?_, ?_, ?_⟩
  · intro title
    rcases hs : scanGroup title.data with _ | g
    · simp [mkTitle, hs]
    · rcases hi : pyIntOfChars g with _ | v <;> simp [mkTitle, hs, hi]
  · intro title hb
    rcases hs : scanGroup title.data with _ | g
    · simp [mkTitle, hs]
    · rw [hs] at hb
      simp only [Option.some_bind] at hb
      simp [mkTitle, hs, hb]
  · intro title g v hs hi
    obtain ⟨hne, hwc, pre, post, hdec⟩ := scanGroup_sound title.data g hs
    refine ⟨?_, hne, hwc, pre, post, hdec⟩
    simp [mkTitle, hs, hi]

/-- C8 witness: the year path of the theorem at
`"The Americans (2017)"`. -/
theorem title_normalization_witness :
    mkTitle "The Americans (2017)" =
      ⟨"The Americans (2017)", "The Americans", some 2017⟩ :=
  ((title_normalization.2.2 "The Americans (2017)" ['2', '0', '1', '7'] 2017
    (by decide) (by decide)).1).trans (by decide)

/-- C8 counterexample: the claim says the year comes from a *trailing*
parenthesized group, and that otherwise the construction falls back to
`year = none` with the normalized form equal to the raw string.  But
`"The (2010) Show"` has no trailing group (it does not even end with a
parenthesis), yet the source extracts `year = 2010` from the first
group and truncates the normalized form to `"The"`. -/
theorem title_normalization_counterexample :
    (mkTitle "The (2010) Show").year = some 2010 ∧
    (mkTitle "The (2010) Show").without_year = "The" ∧
    "The (2010) Show".data.getLast? ≠ some ')' := by
  decide

/-! ### Processor loop lemmas -/

/-- A record absent from the synced-episodes table makes the synced
query empty. -/
lemma tvGetSynced_empty (episodeId : String) (l : Ledger)
    (h : episodeId ∉ l.episodes) : (tvGetSynced episodeId l).isEmpty = true := by
  have hnil : tvGetSynced episodeId l = [] := by
    rw [tvGetSynced, List.filter_eq_nil_iff]
    intro a ha hbeq
    rw [beq_iff_eq] at hbeq
    exact h (hbeq ▸ ha)
  rw [hnil]
  rfl

/-- A movie with no "watched" ledger row makes the synced query empty. -/
lemma movieGetSynced_empty (rec : MovieRecord) (l : Ledger)
    (h : (rec.name, "watched") ∉ l.movies) :
    (movieGetSynced rec l).isEmpty = true := by
  have hnil : movieGetSynced rec l = [] := by
    rw [movieGetSynced, List.filter_eq_nil_iff]
    rintro ⟨a1, a2⟩ ha hbeq
    rw [Bool.and_eq_true, beq_iff_eq, beq_iff_eq] at hbeq
    obtain ⟨h1, h2⟩ := hbeq
    exact h (h1 ▸ h2 ▸ ha)
  rw [hnil]
  rfl

/-- One-step unfolding of the loop when the attempt breaks. -/
lemma processLoop_done
    (attempt : Nat → Bool → Ledger → List Event × Ledger × Bool × AttemptRes)
    (k n : Nat) (b : Bool) (l : Ledger) (ev : List Event) (l2 : Ledger) (b2 : Bool)
    (ha : attempt k b l = (ev, l2, b2, AttemptRes.done)) :
    processLoop true attempt k (n + 1) b l = (ev, l2) := by
  rw [processLoop, ha]
  rfl

/-- One-step unfolding of the loop when the attempt asks for a retry:
the streak is incremented (one fewer try remaining) and the same record
is attempted again, with the binding state left by the attempt. -/
lemma processLoop_step_retry
    (attempt : Nat → Bool → Ledger → List Event × Ledger × Bool × AttemptRes)
    (k n : Nat) (b : Bool) (l : Ledger) (ev : List Event) (l2 : Ledger) (b2 : Bool)
    (ha : attempt k b l = (ev, l2, b2, AttemptRes.retry)) :
    processLoop true attempt k (n + 1) b l =
      (ev ++ (processLoop true attempt (k + 1) n b2 l2).1,
       (processLoop true attempt (k + 1) n b2 l2).2) := by
  rw [processLoop, ha]
  rfl

/-- A trace of insert-free events contains no ledger write. -/
lemma insertFree_mem {t : List Event} (h : t.all (fun e => !eventIsInsert e) = true) :
    ∀ e ∈ t, eventIsInsert e = false := by
  intro e he
  have hb := List.all_eq_true.mp h e he
  simpa using hb

/-- A trace of benign events contains no mutation and no ledger write. -/
lemma benign_not_mut {t : List Event} (h : t.all benignEvent = true) :
    Event.markSeen ∉ t ∧ Event.addWatchlist ∉ t ∧
    ∀ e ∈ t, eventIsInsert e = false := by
  refine ⟨?_, ?_, ?_⟩
  · intro hm
    have hb := List.all_eq_true.mp h _ hm
    simp [benignEvent] at hb
  · intro hm
    have hb := List.all_eq_true.mp h _ hm
    simp [benignEvent] at hb
  · intro e he
    have hb := List.all_eq_true.mp h e he
    cases e <;> simp_all [benignEvent, eventIsInsert]

/-- The episode loop is reached exactly when the synced query is empty. -/
lemma tv_process_item_not_synced (episodeId : String) (oracle : Nat → AttemptEnv)
    (l : Ledger) (h : episodeId ∉ l.episodes) :
    tv_process_item episodeId oracle l =
      processLoop true (fun k => tvAttemptEnv episodeId (oracle k)) 0 11 false l := by
  unfold tv_process_item process_item
  rw [tvGetSynced_empty episodeId l h]
  rfl

/-- The movie loop is reached exactly when the synced query is empty. -/
lemma movie_process_item_not_synced (rec : MovieRecord) (wl : List String)
    (oracle : Nat → AttemptEnv) (l : Ledger)
    (h : (rec.name, "watched") ∉ l.movies) :
    movie_process_item rec wl oracle l =
      processLoop (movie_should_continue rec wl)
        (fun k => movieAttemptEnv rec (oracle k)) 0 11 false l := by
  unfold movie_process_item process_item
  rw [movieGetSynced_empty rec l h]
  rfl

/-- A nonempty synced query short-circuits `process_item` for episodes. -/
lemma tv_process_item_synced (episodeId : String) (oracle : Nat → AttemptEnv)
    (l : Ledger) (h : episodeId ∈ l.episodes) :
    tv_process_item episodeId oracle l = ([], l) := by
  have hne : tvGetSynced episodeId l ≠ [] := by
    have hmem : episodeId ∈ tvGetSynced episodeId l :=
      List.mem_filter.mpr ⟨h, by simp⟩
    intro h0
    rw [h0] at hmem
    cases hmem
  have hsy : (tvGetSynced episodeId l).isEmpty = false := by
    cases hb : (tvGetSynced episodeId l).isEmpty
    · rfl
    · exact absurd (List.isEmpty_iff.mp hb) hne
  unfold tv_process_item process_item
  rw [hsy]
  rfl

/-- A "watched" ledger row short-circuits `process_item` for movies. -/
lemma movie_process_item_synced (rec : MovieRecord) (wl : List String)
    (oracle : Nat → AttemptEnv) (l : Ledger)
    (h : (rec.name, "watched") ∈ l.movies) :
    movie_process_item rec wl oracle l = ([], l) := by
  have hne : movieGetSynced rec l ≠ [] := by
    have hmem : (rec.name, "watched") ∈ movieGetSynced rec l :=
      List.mem_filter.mpr ⟨h, by simp⟩
    intro h0
    rw [h0] at hmem
    cases hmem
  have hsy : (movieGetSynced rec l).isEmpty = false := by
    cases hb : (movieGetSynced rec l).isEmpty
    · rfl
    · exact absurd (List.isEmpty_iff.mp hb) hne
  unfold movie_process_item process_item
  rw [hsy]
  rfl

/-- A TV attempt that asks for a retry performed one search call, left
the ledger alone, and wrote nothing. -/
lemma tvAttemptEnv_of_retry (rec : String) (env : AttemptEnv) (b : Bool) (l : Ledger)
    (h : (tvAttemptEnv rec env b l).2.2.2 = AttemptRes.retry) :
    (tvAttemptEnv rec env b l).2.1 = l ∧
    (tvAttemptEnv rec env b l).1.count .searchCall = 1 ∧
    (tvAttemptEnv rec env b l).1.all (fun e => !eventIsInsert e) = true := by
  obtain ⟨s, m⟩ := env
  cases s with
  | noneResult => exact ⟨rfl, rfl, rfl⟩
  | found =>
    cases m with
    | ok => simp [tvAttemptEnv] at h
    | exc e => cases e <;> exact ⟨rfl, rfl, rfl⟩
  | exc e => cases e <;> cases b <;> exact ⟨rfl, rfl, rfl⟩

/-- A movie attempt on a resolved candidate whose mutation part raises:
either the exception is handled by the shared `except` arms, or the
attempt was in the suppressed warning-only branch and broke cleanly
(no exception was actually raised there). -/
lemma movieAttemptEnv_found_exc (rec : MovieRecord) (e : PyExc) (b : Bool) (l : Ledger) :
    movieAttemptEnv rec ⟨.found, .exc e⟩ b l =
      ([.delay, .searchCall] ++ (handleExc e).1, l, true, (handleExc e).2) ∨
    movieAttemptEnv rec ⟨.found, .exc e⟩ b l =
      ([.delay, .searchCall], l, true, .done) := by
  by_cases hw : (rec.activityType == "watch") = true
  · left
    unfold movieAttemptEnv
    rw [if_pos hw]
  · by_cases hf : ((l.movies.filter
        (fun p => p.1 == rec.name && p.2 == "watchlist")).length = 0)
    · left
      unfold movieAttemptEnv
      rw [if_neg hw, if_pos hf]
    · right
      unfold movieAttemptEnv
      rw [if_neg hw, if_neg hf]

/-- A movie attempt that asks for a retry performed one search call,
left the ledger alone, and wrote nothing — for every activity type. -/
lemma movieAttemptEnv_of_retry (rec : MovieRecord) (env : AttemptEnv) (b : Bool)
    (l : Ledger)
    (h : (movieAttemptEnv rec env b l).2.2.2 = AttemptRes.retry) :
    (movieAttemptEnv rec env b l).2.1 = l ∧
    (movieAttemptEnv rec env b l).1.count .searchCall = 1 ∧
    (movieAttemptEnv rec env b l).1.all (fun e => !eventIsInsert e) = true := by
  obtain ⟨s, m⟩ := env
  cases s with
  | noneResult => exact ⟨rfl, rfl, rfl⟩
  | exc e => cases e <;> cases b <;> exact ⟨rfl, rfl, rfl⟩
  | found =>
    cases m with
    | ok =>
      by_cases hw : (rec.activityType == "watch") = true
      · simp [movieAttemptEnv, hw] at h
      · by_cases hf : ((l.movies.filter
            (fun p => p.1 == rec.name && p.2 == "watchlist")).length = 0)
        · simp [movieAttemptEnv, hw, hf] at h
        · simp [movieAttemptEnv, hw, hf] at h
    | exc e =>
      rcases movieAttemptEnv_found_exc rec e b l with heq | heq
      · rw [heq] at h ⊢
        cases e <;> exact ⟨rfl, rfl, rfl⟩
      · rw [heq] at h
        simp at h

/-- If every attempt from index `k` on asks for a retry (whatever the
binding state), the loop with `n` tries left performs exactly `n`
search calls and stops with the ledger unchanged and nothing
written. -/
lemma processLoop_retry
    (attempt : Nat → Bool → Ledger → List Event × Ledger × Bool × AttemptRes)
    (hcomp : ∀ (k : Nat) (b : Bool) (l : Ledger),
      (attempt k b l).2.2.2 = AttemptRes.retry →
      (attempt k b l).2.1 = l ∧ (attempt k b l).1.count .searchCall = 1 ∧
      (attempt k b l).1.all (fun e => !eventIsInsert e) = true) :
    ∀ (n k : Nat) (b : Bool) (l : Ledger),
      (∀ j b2, j < n → (attempt (k + j) b2 l).2.2.2 = AttemptRes.retry) →
      (processLoop true attempt k n b l).2 = l ∧
      (processLoop true attempt k n b l).1.count .searchCall = n ∧
      (processLoop true attempt k n b l).1.all (fun e => !eventIsInsert e) = true := by
  intro n
  induction n with
  | zero =>
    intro k b l hp
    exact ⟨rfl, rfl, rfl⟩
  | succ n ih =>
    intro k b l hp
    have hr0 : (attempt (k + 0) b l).2.2.2 = AttemptRes.retry :=
      hp 0 b (Nat.succ_pos n)
    rw [Nat.add_zero] at hr0
    have hcomp0 := hcomp k b l hr0
    rcases ha : attempt k b l with ⟨ev, l2, b2, r⟩
    rw [ha] at hr0 hcomp0
    have hr : r = AttemptRes.retry := hr0
    have hl : l2 = l := hcomp0.1
    have hc : ev.count .searchCall = 1 := hcomp0.2.1
    have hins : ev.all (fun e => !eventIsInsert e) = true := hcomp0.2.2
    subst hr
    subst hl
    have hrest := ih (k + 1) b2 l2 (fun j b3 hj => by
      have hpj := hp (j + 1) b3 (Nat.succ_lt_succ hj)
      rwa [show k + (j + 1) = k + 1 + j by omega] at hpj)
    rw [processLoop_step_retry attempt k n b l2 ev l2 b2 ha]
    refine ⟨hrest.1, ?_, ?_⟩
    · rw [List.count_append, hc, hrest.2.1]
      omega
    · rw [List.all_append, hins, hrest.2.2]
      rfl

/-- Any attempt at a non-"watch" movie whose "watchlist" ledger row is
already present leaves the ledger alone, produces only benign events,
and never mutates: the suppressed else-branch of `_process` merely logs
a warning. -/
lemma movieAttemptEnv_suppressed (rec : MovieRecord) (env : AttemptEnv) (b : Bool)
    (l : Ledger) (hact : rec.activityType ≠ "watch")
    (hwl : (rec.name, "watchlist") ∈ l.movies) :
    (movieAttemptEnv rec env b l).2.1 = l ∧
    (movieAttemptEnv rec env b l).1.all benignEvent = true := by
  obtain ⟨s, m⟩ := env
  cases s with
  | noneResult => exact ⟨rfl, rfl⟩
  | exc e => cases e <;> cases b <;> exact ⟨rfl, rfl⟩
  | found =>
    have hbeq : (rec.activityType == "watch") = false := by
      simp [hact]
    have hlen : ((l.movies.filter
        (fun p => p.1 == rec.name && p.2 == "watchlist")).length = 0) → False := by
      intro h0
      rw [List.length_eq_zero] at h0
      have hmem : (rec.name, "watchlist") ∈
          l.movies.filter (fun p => p.1 == rec.name && p.2 == "watchlist") :=
        List.mem_filter.mpr ⟨hwl, by simp⟩
      rw [h0] at hmem
      cases hmem
    have hred : movieAttemptEnv rec ⟨.found, m⟩ b l =
        ([.delay, .searchCall], l, true, .done) := by
      unfold movieAttemptEnv
      simp only [hbeq, Bool.false_eq_true, if_false]
      rw [if_neg hlen]
    rw [hred]
    exact ⟨rfl, rfl⟩

/-- Invariant of the whole retry loop for a suppressed movie record. -/
lemma movieLoop_suppressed (rec : MovieRecord) (oracle : Nat → AttemptEnv)
    (sc : Bool) (hact : rec.activityType ≠ "watch") :
    ∀ (n k : Nat) (b : Bool) (l : Ledger), (rec.name, "watchlist") ∈ l.movies →
      (processLoop sc (fun j => movieAttemptEnv rec (oracle j)) k n b l).2 = l ∧
      (processLoop sc (fun j => movieAttemptEnv rec (oracle j)) k n b l).1.all
        benignEvent = true := by
  intro n
  induction n with
  | zero => intro k b l hmem; exact ⟨rfl, rfl⟩
  | succ n ih =>
    intro k b l hmem
    cases sc with
    | false => exact ⟨rfl, rfl⟩
    | true =>
      have hstep := movieAttemptEnv_suppressed rec (oracle k) b l hact hmem
      rcases ha : movieAttemptEnv rec (oracle k) b l with ⟨ev, l2, b2, r⟩
      rw [ha] at hstep
      have hl : l2 = l := hstep.1
      have hben : ev.all benignEvent = true := hstep.2
      subst hl
      cases r with
      | done =>
        rw [processLoop_done _ k n b l2 ev l2 b2 ha]
        exact ⟨rfl, hben⟩
      | retry =>
        rw [processLoop_step_retry _ k n b l2 ev l2 b2 ha]
        obtain ⟨ihl, ihben⟩ := ih (k + 1) b2 l2 hmem
        refine ⟨ihl, ?_⟩
        rw [List.all_append, hben, ihben]
        rfl

/-! ### C5 — streak abandonment, C6 — error classification -/

/-- C5: a record whose first 11 attempts all fail with a retryable
transient condition — formally: each of those attempts asks the loop
for a retry, whatever the binding state of the `trakt_item` local —
is abandoned after exactly 11 catalog search calls (no 12th attempt),
with the Ledger unchanged and no ledger write anywhere in the trace.
Stated for every episode record, and for every movie record of any
activity type that actually enters the retry loop (not already synced,
not suppressed by `_should_continue`). -/
theorem streak_abandonment :
    (∀ (episodeId : String) (oracle : Nat → AttemptEnv) (l : Ledger),
        episodeId ∉ l.episodes →
        (∀ j b, j < 11 →
          (tvAttemptEnv episodeId (oracle j) b l).2.2.2 = AttemptRes.retry) →
        (tv_process_item episodeId oracle l).2 = l ∧
        (tv_process_item episodeId oracle l).1.count .searchCall = 11 ∧
        ∀ e ∈ (tv_process_item episodeId oracle l).1, eventIsInsert e = false) ∧
    (∀ (rec : MovieRecord) (wl : List String) (oracle : Nat → AttemptEnv) (l : Ledger),
        movie_should_continue rec wl = true →
        (rec.name, "watched") ∉ l.movies →
        (∀ j b, j < 11 →
          (movieAttemptEnv rec (oracle j) b l).2.2.2 = AttemptRes.retry) →
        (movie_process_item rec wl oracle l).2 = l ∧
        (movie_process_item rec wl oracle l).1.count .searchCall = 11 ∧
        ∀ e ∈ (movie_process_item rec wl oracle l).1, eventIsInsert e = false) := by
  constructor
  · intro episodeId oracle l hnot hr
    have hloop := processLoop_retry (fun k => tvAttemptEnv episodeId (oracle k))
      (fun k b l2 => tvAttemptEnv_of_retry episodeId (oracle k) b l2)
      11 0 false l (fun j b2 hj => by simpa using hr j b2 hj)
    rw [tv_process_item_not_synced episodeId oracle l hnot]
    exact ⟨hloop.1, hloop.2.1, insertFree_mem hloop.2.2⟩
  · intro rec wl oracle l hsc hnot hr
    have hloop := processLoop_retry (fun k => movieAttemptEnv rec (oracle k))
      (fun k b l2 => movieAttemptEnv_of_retry rec (oracle k) b l2)
      11 0 false l (fun j b2 hj => by simpa using hr j b2 hj)
    rw [movie_process_item_not_synced rec wl oracle l hnot, hsc]
    exact ⟨hloop.1, hloop.2.1, insertFree_mem hloop.2.2⟩

/-- C5 witness: eleven consecutive rate-limit failures abandon an
unsynced episode record, and likewise an unsynced, unsuppressed movie
record whose activity type is not "watch", after exactly 11 search
calls each. -/
theorem streak_abandonment_witness :
    (tv_process_item "E1" (fun _ => ⟨.exc .rateLimit, .ok⟩)
      ⟨[], []⟩).1.count .searchCall = 11 ∧
    (movie_process_item ⟨"M", "follow"⟩ [] (fun _ => ⟨.exc .rateLimit, .ok⟩)
      ⟨[], []⟩).1.count .searchCall = 11 :=
  ⟨(streak_abandonment.1 "E1" (fun _ => ⟨.exc .rateLimit, .ok⟩) ⟨[], []⟩
      (by decide) (fun _ _ _ => rfl)).2.1,
   (streak_abandonment.2 ⟨"M", "follow"⟩ [] (fun _ => ⟨.exc .rateLimit, .ok⟩)
      ⟨[], []⟩ rfl (by decide) (fun _ _ _ => rfl)).2.1⟩

/-- C1: replaying fully-synced records is idempotent. An episode
record whose episodeId is already in the Ledger, and a "watch" movie
record whose (name, watched) row is present, produce no events at all
and leave the Ledger unchanged. A movie record of any other activity
type whose (name, watchlist) row is present performs no mutation and
no insert and leaves the Ledger unchanged — though a search call may
still occur, since the synced query looks only at "watched" rows. -/
theorem replay_idempotence :
    (∀ (episodeId : String) (oracle : Nat → AttemptEnv) (l : Ledger),
        episodeId ∈ l.episodes →
        tv_process_item episodeId oracle l = ([], l)) ∧
    (∀ (rec : MovieRecord) (wl : List String) (oracle : Nat → AttemptEnv) (l : Ledger),
        rec.activityType = "watch" →
        (rec.name, "watched") ∈ l.movies →
        movie_process_item rec wl oracle l = ([], l)) ∧
    (∀ (rec : MovieRecord) (wl : List String) (oracle : Nat → AttemptEnv) (l : Ledger),
        rec.activityType ≠ "watch" →
        (rec.name, "watchlist") ∈ l.movies →
        (movie_process_item rec wl oracle l).2 = l ∧
        Event.markSeen ∉ (movie_process_item rec wl oracle l).1 ∧
        Event.addWatchlist ∉ (movie_process_item rec wl oracle l).1 ∧
        ∀ e ∈ (movie_process_item rec wl oracle l).1, eventIsInsert e = false) := by
  refine ⟨?_, ?_, ?_⟩
  · intro episodeId oracle l h
    exact tv_process_item_synced episodeId oracle l h
  · intro rec wl oracle l _ h
    exact movie_process_item_synced rec wl oracle l h
  · intro rec wl oracle l hact hwl
    by_cases hsy : (rec.name, "watched") ∈ l.movies
    · rw [movie_process_item_synced rec wl oracle l hsy]
      exact ⟨rfl, by simp, by simp, by intro e he; cases he⟩
    · rw [movie_process_item_not_synced rec wl oracle l hsy]
      have hloop := movieLoop_suppressed rec oracle
        (movie_should_continue rec wl) hact 11 0 false l hwl
      obtain ⟨hm, hw2, hins⟩ := benign_not_mut hloop.2
      exact ⟨hloop.1, hm, hw2, hins⟩

/-- C1 witness: a synced episode, a synced watched movie, and a
suppressed follow-type movie with its watchlist row present. -/
theorem replay_idempotence_witness :
    tv_process_item "E1" (fun _ => ⟨.found, .ok⟩) ⟨["E1"], []⟩ = ([], ⟨["E1"], []⟩) ∧
    movie_process_item ⟨"M", "watch"⟩ [] (fun _ => ⟨.found, .ok⟩)
      ⟨[], [("M", "watched")]⟩ = ([], ⟨[], [("M", "watched")]⟩) ∧
    (movie_process_item ⟨"M", "follow"⟩ [] (fun _ => ⟨.found, .ok⟩)
      ⟨[], [("M", "watchlist")]⟩).2 = ⟨[], [("M", "watchlist")]⟩ :=
  ⟨replay_idempotence.1 "E1" (fun _ => ⟨.found, .ok⟩) ⟨["E1"], []⟩ (by decide),
   replay_idempotence.2.1 ⟨"M", "watch"⟩ [] (fun _ => ⟨.found, .ok⟩)
     ⟨[], [("M", "watched")]⟩ rfl (by decide),
   (replay_idempotence.2.2 ⟨"M", "follow"⟩ [] (fun _ => ⟨.found, .ok⟩)
     ⟨[], [("M", "watchlist")]⟩ (by decide) (by decide)).1⟩

/-- C1 counterexample: the claim promises that a fully-synced record
"performs no catalog search call". For the non-"watch" movie record
("M", "follow") whose ("M", "watchlist") ledger row is present — the
record is fully synced in the claim's sense — the synced query of
MovieProcessor._get_synced_items inspects only "watched" rows, finds
none, and the loop runs: the trace contains a search call. -/
theorem replay_idempotence_counterexample :
    (movie_process_item ⟨"M", "follow"⟩ [] (fun _ => ⟨.noneResult, .ok⟩)
      ⟨[], [("M", "watchlist")]⟩).1 = [.delay, .searchCall] ∧
    movieKeyPresent ⟨"M", "follow"⟩ ⟨[], [("M", "watchlist")]⟩ = true := by
  constructor
  · decide
  · unfold movieKeyPresent
    decide

/-! ### C3 — year filtering -/

/-- Variant of `List.find?_cons_of_pos` taking the predicate explicitly. -/
lemma find?_cons_pos' {α : Type} (p : α → Bool) (a : α) (l : List α)
    (h : p a = true) : (a :: l).find? p = some a :=
  List.find?_cons_of_pos l h

/-- Variant of `List.find?_cons_of_neg` taking the predicate explicitly. -/
lemma find?_cons_neg' {α : Type} (p : α → Bool) (a : α) (l : List α)
    (h : p a = false) : (a :: l).find? p = l.find? p :=
  List.find?_cons_of_neg l (by simp [h])

/-- Variant of `List.filter_cons_of_pos` taking the predicate explicitly. -/
lemma filter_cons_pos' {α : Type} (p : α → Bool) (a : α) (l : List α)
    (h : p a = true) : (a :: l).filter p = a :: l.filter p :=
  List.filter_cons_of_pos h

/-- Variant of `List.filter_cons_of_neg` taking the predicate explicitly. -/
lemma filter_cons_neg' {α : Type} (p : α → Bool) (a : α) (l : List α)
    (h : p a = false) : (a :: l).filter p = l.filter p :=
  List.filter_cons_of_neg (by simp [h])

/-- Characterization of the filtering loop when the title's year is
truthy: the first exact name-and-year candidate short-circuits to a
singleton (the accumulator is discarded); otherwise the accumulator is
extended with the matching candidates whose year agrees. -/
lemma itemsLoop_year (t : Title) (y : Int) (hy : t.year = some y) (hy0 : y ≠ 0) :
    ∀ (l acc : List CandItem),
      (∀ i ∈ l, (pySplit i.title).length ≠ 0) →
      itemsLoop t l acc =
        (match l.find? (fun i => t.name == i.title && i.year == t.year) with
         | some i => some [i]
         | none => some (acc ++ l.filter (fun i =>
             (title_matches t.name i.title == some true) && (i.year == t.year)))) := by
  have htruthy : pyTruthy t.year = true := by
    rw [hy]
    simp [pyTruthy, hy0]
  intro l
  induction l with
  | nil =>
    intro acc h
    simp [itemsLoop]
  | cons item rest ih =>
    intro acc h
    have hden : (pySplit item.title).length ≠ 0 := h item (List.mem_cons_self _ _)
    have hrest : ∀ i ∈ rest, (pySplit i.title).length ≠ 0 :=
      fun i hi => h i (List.mem_cons_of_mem _ hi)
    obtain ⟨b, hb⟩ := title_matches_total t.name item.title hden
    cases b with
    | false =>
      have hnames : (t.name == item.title) = false := by
        cases hbe : t.name == item.title
        · rfl
        · rw [beq_iff_eq] at hbe
          rw [hbe, title_matches_refl] at hb
          cases hb
      rw [itemsLoop, hb]
      rw [find?_cons_neg' (fun i => t.name == i.title && i.year == t.year)
          item rest (by simp [hnames]),
        filter_cons_neg' (fun i =>
          (title_matches t.name i.title == some true) && (i.year == t.year))
          item rest (by simp [hb])]
      exact ih acc hrest
    | true =>
      rw [itemsLoop, hb]
      rw [if_pos htruthy]
      by_cases hex : (t.name == item.title && item.year == t.year) = true
      · rw [if_pos hex,
          find?_cons_pos' (fun i => t.name == i.title && i.year == t.year)
            item rest (by simpa using hex)]
      · rw [if_neg hex]
        have hexf : (t.name == item.title && item.year == t.year) = false := by
          cases hv : (t.name == item.title && item.year == t.year)
          · rfl
          · exact absurd hv hex
        by_cases hyr : (item.year == t.year) = true
        · rw [if_pos hyr]
          rw [find?_cons_neg' (fun i => t.name == i.title && i.year == t.year)
              item rest (by simpa using hexf),
            filter_cons_pos' (fun i =>
              (title_matches t.name i.title == some true) && (i.year == t.year))
              item rest (by simp [hb, hyr])]
          rw [ih (acc ++ [item]) hrest]
          cases hf : rest.find? (fun i => t.name == i.title && i.year == t.year)
          · simp
          · rfl
        · have hyrf : (item.year == t.year) = false := by
            cases hv : (item.year == t.year)
            · rfl
            · exact absurd hv hyr
          rw [if_neg hyr]
          rw [find?_cons_neg' (fun i => t.name == i.title && i.year == t.year)
              item rest (by simpa using hexf),
            filter_cons_neg' (fun i =>
              (title_matches t.name i.title == some true) && (i.year == t.year))
              item rest (by simp [hyrf])]
          exact ih acc hrest

/-- C3 (amended): when `Title.year` is present *and nonzero* (the source
tests Python truthiness, so year 0 behaves as no year — see the
counterexample), and every candidate title has at least one
whitespace-delimited token (otherwise the underlying match test
raises), the filter returns the first candidate whose title is an
exact string match to the raw `Title.name` with an equal year — as a
singleton, discarding earlier matches — and otherwise keeps exactly
the matching candidates whose year equals `Title.year`. -/
theorem year_filtering (t : Title) (y : Int) (items : List CandItem)
    (hy : t.year = some y) (hy0 : y ≠ 0)
    (h : ∀ i ∈ items, (pySplit i.title).length ≠ 0) :
    items_with_same_name t items =
      (match items.find? (fun i => t.name == i.title && i.year == t.year) with
       | some i => some [i]
       | none => some (items.filter (fun i =>
           (title_matches t.name i.title == some true) && (i.year == t.year)))) := by
  have hl := itemsLoop_year t y hy hy0 items [] h
  rw [items_with_same_name, hl]
  cases hf : items.find? (fun i => t.name == i.title && i.year == t.year)
  · simp
  · rfl

/-- C3 witness: the spec's example — `Title("The Americans (2017)")`
against candidates of years 2017 and 1990 filters to exactly the 2017
candidate. -/
theorem year_filtering_witness :
    items_with_same_name (mkTitle "The Americans (2017)")
      [⟨"The Americans", some 2017⟩, ⟨"The Americans", some 1990⟩] =
      some [⟨"The Americans", some 2017⟩] :=
  (year_filtering (mkTitle "The Americans (2017)") 2017
    [⟨"The Americans", some 2017⟩, ⟨"The Americans", some 1990⟩]
    (by decide) (by decide) (by decide)).trans (by decide)

/-- C3 counterexample: the claim says that whenever `Title.year` is
present, a matching candidate is kept iff its year equals `Title.year`.
`Title("A (0)")` has `year = some 0` (present), and the candidate
`{"A", 5}` matches with year 5 ≠ 0, so the claim predicts it is
dropped; the source tests `if self.year:` — Python truthiness — so
year 0 takes the no-year branch and the candidate is kept. -/
theorem year_filtering_counterexample :
    (mkTitle "A (0)").year = some 0 ∧
    items_with_same_name (mkTitle "A (0)") [⟨"A", some 5⟩] =
      some [⟨"A", some 5⟩] := by
  decide

/-! ### C4 and C10 — the disambiguation resolver -/

/-- The single-result check returns `None` when there is no unique
exact-title match and more than one candidate. -/
lemma check_single_result_none (name : String) (items : List CandItem)
    (hexact : (items.filter (fun i => i.title == name)).length ≠ 1)
    (hlen : items.length ≠ 1) :
    check_single_result name items = none := by
  unfold check_single_result
  rw [if_neg hexact, if_neg hlen]

/-- The memo lookup falls through to the prompt when the query does not
return exactly one row. -/
lemma search_local_noEntry (name : String) (table : List Decision)
    (items : List CandItem)
    (h : (table.filter (fun d => d.name == name)).length ≠ 1) :
    search_local name table items = LocalRes.noEntry := by
  unfold search_local
  rcases hf : table.filter (fun d => d.name == name) with _ | ⟨d, rest⟩
  · rw [hf]
  · rcases rest with _ | ⟨d2, rest2⟩
    · rw [hf] at h
      simp at h
    · rw [hf]

/-- Python `l[-1]` is the last element of a nonempty list. -/
lemma pyGet_neg_one {α : Type} (l : List α) (h : l ≠ []) :
    pyGet? l (-1) = l.getLast? := by
  have hl : 0 < l.length := List.length_pos.mpr h
  unfold pyGet?
  rw [if_neg (by omega), if_pos (by omega)]
  rw [show ((l.length : Int) + -1).toNat = l.length - 1 by omega]
  exact (List.getLast?_eq_get? l).symm

/-- Answering the prompt with `"0"` is accepted at once: `int("0") - 1`
is `-1`, which indexes the last candidate. -/
lemma handle_manual_zero (items : List CandItem) (rest : List String) (c : CandItem)
    (hlast : items.getLast? = some c) (hne : items ≠ []) :
    handle_multiple_manually items ("0" :: rest) =
      some (.picked c (-1), 1) := by
  have hz : pyParseInt "0" = some 0 := by decide
  have hneg : (0 : Int) - 1 = -1 := by decide
  unfold handle_multiple_manually
  rw [if_neg (by decide)]
  rw [hz]
  show (match pyGet? items ((0 : Int) - 1) with
    | some c => some (HandleRes.picked c ((0 : Int) - 1), 1)
    | none => some (.idxErr, 1)) = _
  rw [hneg, pyGet_neg_one items hne, hlast]

/-- C4 (amended): with at least two filtered candidates, *no unique
exact-title match among them* (the single-result check of the source
runs first and would otherwise preempt the memo — see the
counterexample), and *exactly one* persisted decision row for the
effective name, the resolver performs no prompt and leaves the table
unchanged: a skip row resolves to "no match" at once, and a non-skip
row resolves to the candidate at the stored positional index (Python
indexing into the current candidate list). -/
theorem memo_reuse (t : Title) (raw : List CandItem) (table : List Decision)
    (inputs : List String) (items : List CandItem) (d : Decision)
    (hitems : items_with_same_name t raw = some items)
    (hlen : 2 ≤ items.length)
    (hexact : (items.filter (fun i => i.title == effectiveName t)).length ≠ 1)
    (hquery : table.filter (fun q => q.name == effectiveName t) = [d]) :
    (d.skip = true → searcher_search t raw table inputs = some (.noMatch, table, 0)) ∧
    (∀ c, d.skip = false → pyGet? items d.index = some c →
        searcher_search t raw table inputs = some (.found c, table, 0)) := by
  have hsingle : check_single_result (effectiveName t) items = none :=
    check_single_result_none _ _ hexact (by omega)
  have hnl : ¬(items.length < 1) := by omega
  constructor
  · intro hskip
    simp only [searcher_search, hitems, hsingle, hnl, if_false, search_local,
      hquery, hskip, if_true]
  · intro c hskip hget
    simp only [searcher_search, hitems, hsingle, hnl, if_false, search_local,
      hquery, hskip, hget, Bool.false_eq_true]

/-- C4 witness: a persisted skip decision for `"Shameless"` resolves a
later two-candidate search to "no match" with no prompt and no table
change. -/
theorem memo_reuse_witness :
    searcher_search (mkTitle "Shameless")
      [⟨"Shameless", some 2011⟩, ⟨"Shameless", some 2004⟩]
      [⟨"Shameless", 0, true⟩] [] =
      some (.noMatch, [⟨"Shameless", 0, true⟩], 0) :=
  (memo_reuse (mkTitle "Shameless")
    [⟨"Shameless", some 2011⟩, ⟨"Shameless", some 2004⟩]
    [⟨"Shameless", 0, true⟩] []
    [⟨"Shameless", some 2011⟩, ⟨"Shameless", some 2004⟩]
    ⟨"Shameless", 0, true⟩
    (by decide) (by decide) (by decide) (by decide)).1 rfl

/-- C4 counterexample: the claim promises that a persisted skip decision
plus two or more filtered candidates always yields "no match" with no
further I/O.  With candidates `["A", "AB"]` (both match the name "A",
so the filtered list has two entries) and a persisted skip row for
"A", the source still returns the candidate `"A"`: the unique
exact-title tie-break of `_check_single_result` runs *before* the memo
lookup. -/
theorem memo_reuse_counterexample :
    (items_with_same_name (mkTitle "A") [⟨"A", none⟩, ⟨"AB", none⟩]).map
      List.length = some 2 ∧
    [(⟨"A", 0, true⟩ : Decision)].filter
      (fun q => q.name == effectiveName (mkTitle "A")) = [⟨"A", 0, true⟩] ∧
    searcher_search (mkTitle "A") [⟨"A", none⟩, ⟨"AB", none⟩]
      [⟨"A", 0, true⟩] [] =
      some (.found ⟨"A", none⟩, [⟨"A", 0, true⟩], 0) := by
  decide

/-- C10: when the prompt is reached (two or more candidates, no unique
exact-title match, no single memo row) and the user answers `"0"`, the
resolver accepts it without re-prompting (exactly one prompt is
consumed), returns the last candidate (Python index `int("0") - 1 = -1`
counts from the back), and persists a decision with
`selectedIndex = -1` and `skip = false`. -/
theorem zero_input_last (t : Title) (raw : List CandItem) (table : List Decision)
    (rest : List String) (items : List CandItem) (c : CandItem)
    (hitems : items_with_same_name t raw = some items)
    (hlen : 2 ≤ items.length)
    (hexact : (items.filter (fun i => i.title == effectiveName t)).length ≠ 1)
    (hquery : (table.filter (fun q => q.name == effectiveName t)).length ≠ 1)
    (hlast : items.getLast? = some c) :
    searcher_search t raw table ("0" :: rest) =
      some (.found c, table ++ [⟨effectiveName t, -1, false⟩], 1) := by
  have hsingle : check_single_result (effectiveName t) items = none :=
    check_single_result_none _ _ hexact (by omega)
  have hnl : ¬(items.length < 1) := by omega
  have hne : items ≠ [] := by
    intro h0
    rw [h0] at hlen
    simp at hlen
  have hloc := search_local_noEntry (effectiveName t) table items hquery
  have hman := handle_manual_zero items rest c hlast hne
  simp only [searcher_search, hitems, hsingle, hnl, if_false, hloc, hman]

/-- C10 witness: answering `"0"` for `"Shameless"` with two candidates
returns the 2004 one (the last) and persists index `-1`, `skip =
false`, after a single prompt. -/
theorem zero_input_last_witness :
    searcher_search (mkTitle "Shameless")
      [⟨"Shameless", some 2011⟩, ⟨"Shameless", some 2004⟩] [] ["0"] =
      some (.found ⟨"Shameless", some 2004⟩, [⟨"Shameless", -1, false⟩], 1) :=
  zero_input_last (mkTitle "Shameless")
    [⟨"Shameless", some 2011⟩, ⟨"Shameless", some 2004⟩] [] []
    [⟨"Shameless", some 2011⟩, ⟨"Shameless", some 2004⟩]
    ⟨"Shameless", some 2004⟩
    (by decide) (by decide) (by decide) (by decide) (by decide)
